import Mathlib

/-!
A shallow embedding of the ProjectD doxygen-comment pipeline
(`src/projectd/doxygen_parser/process_lines.py`, `doxygen_parser.py`,
`utils.py`, `dataclasses.py` and `src/projectd/parse.py`), together with
theorems checking the natural-language specification against it.

Python strings are modelled as Lean `String` (a structure holding a
`List Char`); the Python string primitives used by the source (strip,
split, replace, find, slicing, startswith/endswith) are re-implemented
below with Python's exact semantics, including the corner cases the
source can hit (negative slice start, empty replace pattern,
whitespace-run splitting that discards empty chunks).
-/

namespace ProjectD

/-! ## Python string primitives -/

/-- The ASCII whitespace characters recognised by Python's argument-less
`str.split()` / `str.strip()` / `str.lstrip()`. -/
def isPyWs (c : Char) : Bool :=
  c = ' ' || c = '\t' || c = '\n' || c = '\r' || c = '\x0b' || c = '\x0c'

/-- `str.lstrip(chars)` at the char-list level. -/
def lstripSet (chars : List Char) (l : List Char) : List Char :=
  l.dropWhile (fun c => c ∈ chars)

/-- `str.rstrip(chars)` at the char-list level. -/
def rstripSet (chars : List Char) (l : List Char) : List Char :=
  (l.reverse.dropWhile (fun c => c ∈ chars)).reverse

/-- `str.strip()` (whitespace, both ends) at the char-list level. -/
def stripWsL (l : List Char) : List Char :=
  ((l.dropWhile isPyWs).reverse.dropWhile isPyWs).reverse

/-- Helper for `str.split()` with no argument: split on runs of whitespace,
discarding empty chunks.  `acc` is the current chunk, reversed. -/
def splitWsAux : List Char → List Char → List (List Char)
  | [], acc => if acc = [] then [] else [acc.reverse]
  | c :: cs, acc =>
    if isPyWs c then
      if acc = [] then splitWsAux cs [] else acc.reverse :: splitWsAux cs []
    else
      splitWsAux cs (c :: acc)

/-- `str.replace` with a non-empty pattern `p :: ps`: replace every
(leftmost, non-overlapping) occurrence.  The `Nat` argument is fuel making
the recursion structural; each step consumes at least one character, so any
fuel `≥` the list length computes the untruncated result. -/
def replaceAux (p : Char) (ps rep : List Char) : Nat → List Char → List Char
  | _, [] => []
  | 0, l => l
  | n + 1, c :: cs =>
    if (p :: ps).isPrefixOf (c :: cs) then rep ++ replaceAux p ps rep n (cs.drop ps.length)
    else c :: replaceAux p ps rep n cs

/-- Python `str.replace(pat, rep)` at the char-list level.  An empty
pattern inserts `rep` at every character boundary (Python semantics). -/
def replaceL (pat rep l : List Char) : List Char :=
  match pat with
  | [] => rep ++ (l.map (fun c => [c] ++ rep)).flatten
  | p :: ps => replaceAux p ps rep l.length l

/-- Build a `String` back from a char list. -/
def ofL (l : List Char) : String := ⟨l⟩

/-- Python `s.replace(pat, rep)`. -/
def pyReplace (s pat rep : String) : String := ofL (replaceL pat.data rep.data s.data)

/-- Python `s.split()` (no argument). -/
def pySplit (s : String) : List String := (splitWsAux s.data []).map ofL

/-- Python `s.strip()` (no argument). -/
def pyStripWs (s : String) : String := ofL (stripWsL s.data)

/-- Python `s.lstrip()` (no argument). -/
def pyLstripWs (s : String) : String := ofL (s.data.dropWhile isPyWs)

/-- Python `s.startswith(pre)`. -/
def pyStartsWith (s pre : String) : Bool := pre.data.isPrefixOf s.data

/-- Python `s.endswith(suf)`. -/
def pyEndsWith (s suf : String) : Bool := suf.data.isSuffixOf s.data

/-- Python `pat in s` (substring containment). -/
def isSubAux (pat : List Char) : List Char → Bool
  | [] => pat.isEmpty
  | c :: cs => pat.isPrefixOf (c :: cs) || isSubAux pat cs

/-- Python `pat in s`. -/
def pyContains (s pat : String) : Bool := isSubAux pat.data s.data

/-- Helper for `str.find`: index of the first occurrence, counting from `i`. -/
def findSubAux (pat : List Char) : List Char → Nat → Option Nat
  | [], i => if pat.isEmpty then some i else none
  | c :: cs, i => if pat.isPrefixOf (c :: cs) then some i else findSubAux pat cs (i + 1)

/-- Python `s.find(pat)`: first index, or `-1` when absent. -/
def pyFind (s pat : String) : Int :=
  match findSubAux pat.data s.data 0 with
  | some i => (i : Int)
  | none => -1

/-- Python `s[k:]` where `k` may be negative (counts from the end, clamped). -/
def pySliceFrom (s : String) (k : Int) : String :=
  if k ≥ 0 then ofL (s.data.drop k.toNat)
  else ofL (s.data.drop (max (s.data.length + k) 0).toNat)

/-- Split at the first character satisfying `p`, or `none` when there is none
(the pieces exclude the separator). -/
def splitOnceP (p : Char → Bool) : List Char → Option (List Char × List Char)
  | [] => none
  | c :: cs =>
    if p c then some ([], cs)
    else (splitOnceP p cs).map (fun x => (c :: x.1, x.2))

/-- Python `s.split(" ", 1)` when it yields two pieces; `none` models the
single-piece result whose tuple-unpacking raises `ValueError`. -/
def pySplitOnceSpace (s : String) : Option (String × String) :=
  (splitOnceP (fun c => c = ' ') s.data).map (fun x => (ofL x.1, ofL x.2))

/-- Python `re.split(" |\n", s, maxsplit=1)` when the separator occurs:
split at the first space or newline. -/
def pySplitOnceSpaceNl (s : String) : Option (String × String) :=
  (splitOnceP (fun c => c = ' ' || c = '\n') s.data).map (fun x => (ofL x.1, ofL x.2))

/-- Python `re.split("::|#", s)`: split on every `::` or `#`, scanning left
to right (a lone `:` is not a separator). -/
def splitRefAux : List Char → List Char → List (List Char)
  | [], acc => [acc.reverse]
  | ':' :: ':' :: rest, acc => acc.reverse :: splitRefAux rest []
  | '#' :: rest, acc => acc.reverse :: splitRefAux rest []
  | c :: rest, acc => splitRefAux rest (c :: acc)

/-- Python `re.split("::|#", s)` on strings. -/
def pySplitRef (s : String) : List String := (splitRefAux s.data []).map ofL

/-! ## Data model (`dataclasses.py`) -/

/-- The `Literal["text", "code", "verbatim"]` element kind. -/
inductive ElemType
  | text
  | code
  | verbatim
deriving DecidableEq, Repr

/-- `DocElement`: one typed content element. -/
structure DocElement where
  text : String
  element_type : ElemType
deriving DecidableEq, Repr

/-- `DocBlock`: an ordered sequence of elements (default: empty). -/
structure DocBlock where
  elements : List DocElement := []
deriving DecidableEq, Repr

/-- `CommandDoc`: a named command block (empty name = anonymous). -/
structure CommandDoc where
  name : String
  doc : DocBlock := {}
deriving DecidableEq, Repr

/-! ## Comment segmenter (`process_lines.py`, `_remove_comment_chars_from_line`
and `_preprocess_lines`) -/

/-- `_remove_comment_chars_from_line`. -/
def remove_comment_chars_from_line (line : String) : String :=
  let line := pyStripWs line
  let line :=
    if pyStartsWith line "//!<" || pyStartsWith line "///<" then ofL (line.data.drop 4)
    else if pyStartsWith line "///" then ofL (line.data.drop 3)
    else pyReplace (pyReplace (pyReplace (pyReplace line "/**" "") "/*!" "") "/*" "") "*/" ""
  ofL (rstripSet ['*'] (lstripSet ['*'] line.data))

/-- The `block_type` state values of `_preprocess_lines`. -/
inductive BlockKind
  | verbatim
  | code
  | other
  | list
deriving DecidableEq, Repr

/-- The loop state of `_preprocess_lines`. -/
structure PPState where
  result : List String := []
  cur_line : String := ""
  block_type : Option BlockKind := none
  chars_from_original_line : Int := 0
deriving Repr

/-- Python `"\n".join([a, b])`. -/
def joinNl (a b : String) : String := a ++ "\n" ++ b

/-- `fully_stripped_line.startswith(("\\", "@", "-", "+", "*"))`. -/
def startsCommandOrList (s : String) : Bool :=
  pyStartsWith s "\\" || pyStartsWith s "@" || pyStartsWith s "-" ||
    pyStartsWith s "+" || pyStartsWith s "*"

/-- The tail of each `_preprocess_lines` iteration, reached with no open
verbatim/code region and no open accumulation: the blank-line check and the
opening of a new verbatim/code/list/other block. -/
def ppOpen (st : PPState) (original_line stripped_line fully_stripped_line : String) :
    PPState :=
  if fully_stripped_line = "" then
    if st.result ≠ [] then { st with result := st.result ++ ["@blank"] } else st
  else if pyStartsWith fully_stripped_line "\\verbatim" ||
      pyStartsWith fully_stripped_line "@verbatim" then
    { st with
      block_type := some .verbatim
      chars_from_original_line :=
        max (pyFind original_line "@verbatim") (pyFind original_line "\\verbatim")
      cur_line := fully_stripped_line }
  else if pyStartsWith fully_stripped_line "\\code" ||
      pyStartsWith fully_stripped_line "@code" then
    { st with
      block_type := some .code
      chars_from_original_line :=
        max (pyFind original_line "@code") (pyFind original_line "\\code")
      cur_line := fully_stripped_line }
  else if pyStartsWith fully_stripped_line "-" || pyStartsWith fully_stripped_line "+" ||
      pyStartsWith fully_stripped_line "*" then
    { st with block_type := some .list, cur_line := "@li " ++ stripped_line }
  else
    { st with block_type := some .other, cur_line := fully_stripped_line }

/-- One iteration of the `for line in lines` loop of `_preprocess_lines`. -/
def preprocessStep (st : PPState) (line : String) : PPState :=
  let original_line := line
  match st.block_type with
  | some .verbatim =>
    if pyContains line "\\endverbatim" || pyContains line "@endverbatim" then
      let line_without_end_verbatim :=
        pySliceFrom (pyReplace (pyReplace line "\\endverbatim" "") "@endverbatim" "")
          st.chars_from_original_line
      -- walrus: join only when the remaining text is non-empty
      let cur :=
        if line_without_end_verbatim ≠ "" then joinNl st.cur_line line_without_end_verbatim
        else st.cur_line
      { st with block_type := none, result := st.result ++ [cur], cur_line := "" }
    else
      let verbatim_line := pySliceFrom line st.chars_from_original_line
      { st with
        cur_line := if st.cur_line ≠ "" then joinNl st.cur_line verbatim_line
          else verbatim_line }
  | some .code =>
    if pyContains line "\\endcode" || pyContains line "@endcode" then
      -- note: unlike the verbatim branch, text on the terminating line is discarded
      { st with block_type := none, result := st.result ++ [st.cur_line], cur_line := "" }
    else
      let code_line := pySliceFrom line st.chars_from_original_line
      { st with
        cur_line := if st.cur_line ≠ "" then joinNl st.cur_line code_line else code_line }
  | bt =>
    let stripped_line := remove_comment_chars_from_line line
    let fully_stripped_line := pyLstripWs stripped_line
    match bt with
    | some .other | some .list =>
      if fully_stripped_line = "" || startsCommandOrList fully_stripped_line then
        -- close the accumulation, then fall through to the checks below
        ppOpen { st with block_type := none, result := st.result ++ [st.cur_line],
                         cur_line := "" }
          original_line stripped_line fully_stripped_line
      else
        { st with
          cur_line := if st.cur_line ≠ "" then st.cur_line ++ " " ++ fully_stripped_line
            else fully_stripped_line }
    | _ => ppOpen st original_line stripped_line fully_stripped_line

/-- `_preprocess_lines`. -/
def preprocess_lines (lines : List String) : List String :=
  let st := lines.foldl preprocessStep {}
  if st.cur_line ≠ "" then st.result ++ [st.cur_line] else st.result

/-! ## Command grouper (`process_lines.py`, `_get_keyword_and_rest_of_line`
and the loop of `process_lines`) -/

/-- `_get_keyword_and_rest_of_line`. -/
def get_keyword_and_rest_of_line (line : String) : String × String :=
  if pyStartsWith line "\\" || pyStartsWith line "@" then
    match pySplitOnceSpaceNl line with
    | some x => (ofL x.1.data.tail, x.2)
    | none => (ofL line.data.tail, "")
  else ("", line)

/-- The loop state of `process_lines`.  Python's `CommandDoc` objects live in
an explicit arena (`store`, index = object identity): `commands` and `cur`
hold references, the shared anonymous command is object `0`.  This models the
in-place mutation of `cur_command.doc.elements` (visible through every
reference, in particular through entries of `commands`) and Python's
`not in`, which compares dataclasses by value. -/
structure GroupState where
  store : List CommandDoc
  commands : List Nat
  cur : Nat
deriving Repr

/-- Dereference an object id. -/
def storeGet (store : List CommandDoc) (i : Nat) : CommandDoc :=
  store.getD i { name := "" }

/-- Python `cur_command in commands`: dataclass value equality against each
list entry. -/
def memberByValue (store : List CommandDoc) (commands : List Nat) (i : Nat) : Bool :=
  commands.any (fun j => decide (storeGet store j = storeGet store i))

/-- `obj.doc.elements.append(el)` on the arena. -/
def pushElem (store : List CommandDoc) (i : Nat) (el : DocElement) : List CommandDoc :=
  store.set i
    { storeGet store i with doc := ⟨(storeGet store i).doc.elements ++ [el]⟩ }

/-- One iteration of the `for line in lines` loop of `process_lines`. -/
def groupStep (st : GroupState) (line : String) : GroupState :=
  let commands :=
    if memberByValue st.store st.commands st.cur then st.commands
    else st.commands ++ [st.cur]
  let kr := get_keyword_and_rest_of_line line
  let keyword := kr.1
  let rest_of_line := kr.2
  if keyword = "blank" then
    { st with commands := commands, cur := 0 }
  else if keyword = "" then
    { store := pushElem st.store 0 { text := rest_of_line, element_type := .text }
      commands := commands, cur := 0 }
  else if keyword = "verbatim" then
    { st with
      store := pushElem st.store st.cur { text := rest_of_line, element_type := .verbatim }
      commands := commands }
  else if keyword = "code" then
    { st with
      store := pushElem st.store st.cur { text := rest_of_line, element_type := .code }
      commands := commands }
  else if keyword = "li" then
    { st with
      store := pushElem st.store st.cur { text := rest_of_line, element_type := .text }
      commands := commands }
  else
    { store := st.store ++
        [{ name := keyword
           doc := ⟨if rest_of_line ≠ "" then [{ text := rest_of_line, element_type := .text }]
             else []⟩ }]
      commands := commands
      cur := st.store.length }

/-- The grouping loop of `process_lines` (everything after the
`_preprocess_lines` call), on an already-preprocessed logical-line list. -/
def group_lines (lines : List String) : List CommandDoc :=
  let st := lines.foldl groupStep { store := [{ name := "" }], commands := [], cur := 0 }
  let commands :=
    if memberByValue st.store st.commands st.cur then st.commands
    else st.commands ++ [st.cur]
  (commands.map (storeGet st.store)).filter
    (fun c => decide (c.name ≠ "" ∨ c.doc.elements ≠ []))

/-- `process_lines`. -/
def process_lines (lines : List String) : List CommandDoc :=
  group_lines (preprocess_lines lines)

/-! ### Segmenter and grouper regression checks, mirroring the repository's
own pytest cases (`test_process_lines.py`) -/

theorem regression_remove_comment_chars :
    remove_comment_chars_from_line "/// line" = " line" ∧
    remove_comment_chars_from_line "  /// line  " = " line" ∧
    remove_comment_chars_from_line "/* line */" = " line " ∧
    remove_comment_chars_from_line "/**** line ****/" = " line " := by
  refine ⟨rfl, rfl, rfl, rfl⟩

theorem regression_preprocess_all_block_types :
    preprocess_lines
      ["@keyword1 some text", "@code", "int i = 1;", "@endcode", "@keyword2 some text",
       "- list item 1", "- list item 2", "@verbatim", "line 1", "line 2@endverbatim"] =
    ["@keyword1 some text", "@code\nint i = 1;", "@keyword2 some text",
     "@li - list item 1", "@li - list item 2", "@verbatim\nline 1\nline 2"] := by
  rfl

theorem regression_preprocess_indentation :
    preprocess_lines ["\t  @code", "\t  def some_func():", "\t    x = 1", "\t  @endcode"] =
      ["@code\ndef some_func():\n  x = 1"] ∧
    preprocess_lines ["\t  @verbatim", "\t    line1: some text", "\t  @endverbatim"] =
      ["@verbatim\n  line1: some text"] := by
  refine ⟨rfl, rfl⟩

theorem regression_group_lines :
    group_lines
      ["anonymous keyword text", "@keyword1 some text", "more anonymous keyword text",
       "@code\nint i = 1;", "@verbatim\nline 1\nline 2"] =
    [{ name := ""
       doc := ⟨[{ text := "anonymous keyword text", element_type := .text },
                { text := "more anonymous keyword text", element_type := .text },
                { text := "int i = 1;", element_type := .code },
                { text := "line 1\nline 2", element_type := .verbatim }]⟩ },
     { name := "keyword1"
       doc := ⟨[{ text := "some text", element_type := .text }]⟩ }] := by
  rfl

/-! ## Entity model (`doxygen_parser.py`)

Python's cyclic object graph (a `ClassDoc` holds its `NamespaceDoc`, which
holds the class back) is represented by position: a class is identified by
the pair (owning namespace name, class simple name), which is exactly how
`parse.py` builds the graph — every class object is reachable as
`namespaces[its namespace's name].classes[its name]`, and the `class_doc` /
`namespace` back-references point to those very objects.  The fields that
`post_process` and reference resolution never read or write (text fields are
the only things rewritten; names and structure are immutable after parsing)
therefore resolve identically through these name paths. -/

/-- The `Direction` enum (`"in"`, `"out"`, `"in,out"`). -/
inductive Direction
  | IN
  | OUT
  | INOUT
deriving DecidableEq, Repr

/-- The `Param` dataclass. -/
structure Param where
  name : String
  desc : DocBlock
  param_type : String
  direction : Direction
deriving DecidableEq, Repr

/-- The fields of `cxxheaderparser.types.Parameter` that `parse_param`
reads: the declared name and the `type.format()` string. -/
structure Parameter where
  name : String
  type_fmt : String
deriving DecidableEq, Repr

/-- The shared `EntityDoc` field block. -/
structure EntityFields where
  name : String
  desc : Option DocBlock := none
  brief : Option DocBlock := none
  deprecated : Option DocBlock := none
  todo : Option DocBlock := none
deriving DecidableEq, Repr

/-- `MethodDoc` (the declaration-fact booleans are carried opaquely). -/
structure MethodDoc where
  base : EntityFields
  params : List Param := []
  static : Bool := false
  inline : Bool := false
  const : Bool := false
  volatile : Bool := false
  constructor : Bool := false
  explicit : Bool := false
  default : Bool := false
  deleted : Bool := false
  destructor : Bool := false
  pure_virtual : Bool := false
  virtual : Bool := false
  final : Bool := false
  override : Bool := false
  returns : Option DocBlock := none
  return_type : Option String := none
deriving DecidableEq, Repr

/-- `AttributeDoc`. -/
structure AttributeDoc where
  base : EntityFields
  attribute_type : String := ""
deriving DecidableEq, Repr

/-- `EnumeratorDoc`. -/
structure EnumeratorDoc where
  base : EntityFields
  value : Option String := none
deriving DecidableEq, Repr

/-- `EnumDoc`. -/
structure EnumDoc where
  base : EntityFields
  values : List EnumeratorDoc := []
deriving DecidableEq, Repr

/-- `ClassDoc`.  The `namespace` back-reference is positional (the class
lives in its owning namespace's `classes` map); `public_enums` is the
name-keyed mapping. -/
structure ClassDoc where
  base : EntityFields
  class_key : String := "class"
  full_name : String := ""
  public_methods : List MethodDoc := []
  public_attributes : List AttributeDoc := []
  public_enums : List (String × EnumDoc) := []
  base_classes : List String := []
deriving DecidableEq, Repr

/-- `NamespaceDoc` (classes and enums keyed by simple name). -/
structure NamespaceDoc where
  base : EntityFields
  classes : List (String × ClassDoc) := []
  enums : List (String × EnumDoc) := []
deriving DecidableEq, Repr

/-- Association-list lookup, modelling `dict.__getitem__` / `in` on the
name-keyed mappings (keys unique by construction in `parse.py`). -/
def alookup {α : Type} (m : List (String × α)) (k : String) : Option α :=
  (m.find? (fun e => decide (e.1 = k))).map (fun e => e.2)

/-- Association-list in-place update of the value at a key. -/
def aupdate {α : Type} (m : List (String × α)) (k : String) (f : α → α) :
    List (String × α) :=
  m.map (fun e => if e.1 = k then (e.1, f e.2) else e)

/-! ## `MethodDoc.parse_param` -/

/-- Python truthiness of a `DocBlock`: the dataclass defines neither
`__bool__` nor `__len__`, so every instance is truthy and
`if not param_doc.doc` never fires. -/
def docBlockTruthy (_ : DocBlock) : Bool := true

/-- `re.match(r"^param(?:\[(in|out|inout)\])?$", name)`: the regex accepts
exactly four strings; `some g` returns the captured direction group. -/
def matchParamPattern (name : String) : Option (Option String) :=
  if name = "param" then some none
  else if name = "param[in]" then some (some "in")
  else if name = "param[out]" then some (some "out")
  else if name = "param[inout]" then some (some "inout")
  else none

/-- `Direction(value)` for the strings the regex can produce. -/
def directionOfString (s : String) : Direction :=
  if s = "in" then .IN
  else if s = "out" then .OUT
  else .INOUT

/-- `MethodDoc.parse_param`.  Fallible: `Except.error` models an uncaught
Python exception escaping the call (the `try` around the tuple unpacking
catches only `ValueError`, so the `IndexError` raised by
`param_doc.doc.elements[0]` on an element-less block propagates). -/
def parse_param (param_doc : CommandDoc) (params : List Parameter) :
    Except String (Option Param) := do
  -- `if not param_doc.doc: return None` — dead: a DocBlock is always truthy
  if docBlockTruthy param_doc.doc = false then
    return none
  match matchParamPattern param_doc.name with
  | none => return none
  | some direction_group =>
    let direction_from_regex :=
      if direction_group = some "inout" then some "in,out" else direction_group
    let direction :=
      match direction_from_regex with
      | none => Direction.IN
      | some s => directionOfString s
    match param_doc.doc.elements with
    | [] => throw "IndexError: list index out of range"
    | el0 :: restElems =>
      match pySplitOnceSpace el0.text with
      | none => return none   -- ValueError on unpacking, caught: return None
      | some x =>
        let param_name := x.1
        let param_desc := x.2
        match params.find? (fun p => decide (p.name = param_name)) with
        | some p =>
          return some
            { name := param_name
              desc := ⟨{ text := param_desc, element_type := ElemType.text } :: restElems⟩
              param_type := p.type_fmt
              direction := direction }
        | none => return none

/-! ## Cross-reference resolution (`_find_reference`, `find_token_reference`,
`_update_text_block`, `modify_sentence`) -/

/-- The entity returned by a successful token-path resolution, tagged with
the name path identifying the Python object (`RefEntity.methodE ns cls m` is
the `MethodDoc` named `m` of class `cls` of namespace `ns`; its `class_doc`
back-reference is that class, wired by `ClassDoc.parse`). -/
inductive RefEntity
  | nsE (ns : String)
  | clsE (ns cls : String)
  | methodE (ns cls m : String)
  | attrE (ns cls a : String)
  | enumE
deriving DecidableEq, Repr

/-- The member-lookup shared by `ClassDoc.find_token_reference` and
`ClassDoc._find_reference` on a first token `t`: a public method when `t`
ends in `"()"`, else a public attribute, else a public enum. -/
def classMemberFind (ns cls : String) (c : ClassDoc) (t : String) : Option RefEntity :=
  if pyEndsWith t "()" &&
      (c.public_methods.find? (fun m =>
        decide (m.base.name = ofL (rstripSet ['(', ')'] t.data)))).isSome then
    some (.methodE ns cls (ofL (rstripSet ['(', ')'] t.data)))
  else if (c.public_attributes.find? (fun a => decide (a.base.name = t))).isSome then
    some (.attrE ns cls t)
  else if (alookup c.public_enums t).isSome then
    some .enumE
  else
    none

/-- `ClassDoc.find_token_reference` (an empty path resolves to the class
itself; otherwise only the first token is examined). -/
def ClassDoc.find_token_reference (ns cls : String) (c : ClassDoc) :
    List String → Option RefEntity
  | [] => some (.clsE ns cls)
  | t :: _ => classMemberFind ns cls c t

/-- `NamespaceDoc.find_token_reference`. -/
def NamespaceDoc.find_token_reference (nsName : String) (ns : NamespaceDoc) :
    List String → Option RefEntity
  | [] => some (.nsE nsName)
  | t :: rest =>
    match alookup ns.classes t with
    | some c => ClassDoc.find_token_reference nsName t c rest
    | none => if (alookup ns.enums t).isSome then some .enumE else none

/-- The global namespace table passed around as `namespace_docs`. -/
def NsTable := List (String × NamespaceDoc)

/-- `EntityDoc._find_reference`: global lookup keyed by the first token. -/
def globalFindReference (env : NsTable) (tokens : List String) : Option RefEntity :=
  match tokens with
  | [] => none
  | t0 :: rest =>
    match alookup env t0 with
    | none => none
    | some ns => NamespaceDoc.find_token_reference t0 ns rest

/-- The resolution context (`self`) of `_update_text_block`: which override
of `_find_reference` runs, and the back-references it consults.
`inMethod none` is a method whose `class_doc` was never wired. -/
inductive RefCtx
  | base
  | inMethod (classRef : Option (String × String))
  | inClass (ns cls : String)
  | inNs (ns : String)
deriving DecidableEq, Repr

/-- Dereference a (namespace, class) back-reference in the graph and run
`ClassDoc.find_token_reference` on it. -/
def classTokenFind (env : NsTable) (n c : String) (tokens : List String) :
    Option RefEntity :=
  match alookup env n with
  | none => none
  | some ns =>
    match alookup ns.classes c with
    | none => none
    | some cd => ClassDoc.find_token_reference n c cd tokens

/-- `NamespaceDoc.find_token_reference` through a namespace name. -/
def nsTokenFind (env : NsTable) (n : String) (tokens : List String) :
    Option RefEntity :=
  match alookup env n with
  | none => none
  | some ns => NamespaceDoc.find_token_reference n ns tokens

/-- The `_find_reference` scope chain, per entity kind:
* `EntityDoc` (attributes, enums, enumerators, files): global table only;
* `MethodDoc`: global, then its class, then its class's namespace;
* `ClassDoc`: global, then its namespace, then its own public members
  (here an empty path yields `None`, unlike `find_token_reference`);
* `NamespaceDoc`: global, then its own classes / enums
  (an empty path yields `None`). -/
def findReference (env : NsTable) (ctx : RefCtx) (tokens : List String) :
    Option RefEntity :=
  match globalFindReference env tokens with
  | some e => some e
  | none =>
    match ctx with
    | .base => none
    | .inMethod cr =>
      match cr with
      | none => none
      | some nc =>
        match classTokenFind env nc.1 nc.2 tokens with
        | some e => some e
        | none => nsTokenFind env nc.1 tokens
    | .inClass n c =>
      match nsTokenFind env n tokens with
      | some e => some e
      | none =>
        match tokens with
        | [] => none
        | t :: _ =>
          match alookup env n with
          | none => none
          | some ns =>
            match alookup ns.classes c with
            | none => none
            | some cd => classMemberFind n c cd t
    | .inNs n =>
      match tokens with
      | [] => none
      | t :: _ =>
        match alookup env n with
        | none => none
        | some ns =>
          match alookup ns.classes t with
          | some c => ClassDoc.find_token_reference n t c (tokens.tail)
          | none => if (alookup ns.enums t).isSome then some .enumE else none

/-- The `class_link` rendering callback:
`(matched_text, namespace, class, member) -> str`. -/
def LinkCb := String → String → String → String → String

/-- The `process_word` closure of `_update_text_block`: reference markers
become empty, resolved entities are rendered through `class_link`
(methods/attributes via their class back-reference, enums and unresolved
words are returned unchanged). -/
def processWord (env : NsTable) (ctx : RefCtx) (class_link : LinkCb)
    (word : String) : String :=
  if word = "@ref" || word = "\\ref" then ""
  else
    match findReference env ctx (pySplitRef word) with
    | some (.clsE n c) => class_link (pyReplace word "#" "::") n c ""
    | some (.methodE n c m) => class_link (pyReplace word "#" "::") n c m
    | some (.attrE n c a) => class_link (pyReplace word "#" "::") n c a
    | some (.nsE n) => class_link word n "" ""
    | some .enumE => word
    | none => word

/-- The punctuation stripped from the left of each word by
`modify_sentence`. -/
def lstripPunct : List Char := [';', ',', '\'', '"', '(', ')', '[', ']', '{', '}']

/-- The punctuation stripped from the right of each word by
`modify_sentence`. -/
def rstripPunct : List Char := [';', ',', '\'', '"', '.', '?', '!', ':']

/-- `word.lstrip(";,'\"()[]{}").rstrip(";,'\".?!:")`. -/
def stripWord (w : String) : String := ofL (rstripSet rstripPunct (lstripSet lstripPunct w.data))

/-- The indexed zip of `modify_sentence`'s last comprehension:
`word.replace(stripped_words[i], modified_words[i])` for each non-empty
`word`. -/
def zipReplace : List String → List String → List String → List String
  | [], _, _ => []
  | w :: ws, s :: ss, m :: ms =>
    (if w ≠ "" then [pyReplace w s m] else []) ++ zipReplace ws ss ms
  | _ :: _, _, _ => []

/-- Python `" ".join(words)`. -/
def pyJoinSpace : List String → String
  | [] => ""
  | [w] => w
  | w :: ws => w ++ " " ++ pyJoinSpace ws

/-- `modify_sentence` (`utils.py`). -/
def modify_sentence (sentence : String) (update_word_callback : String → String) :
    String :=
  let words := pySplit sentence
  let stripped_words := words.map stripWord
  let modified_words := stripped_words.map update_word_callback
  pyJoinSpace (zipReplace words stripped_words modified_words)

/-- `EntityDoc._update_text_block`. -/
def update_text_block (env : NsTable) (ctx : RefCtx) (class_link : LinkCb)
    (text : String) : String :=
  modify_sentence text (processWord env ctx class_link)

/-! ## Post-processing (`EntityDoc.post_process` and overrides,
`parse.post_process`) -/

/-- The `code_template` rendering callback. -/
def CodeCb := String → String

/-- `EntityDoc._update_doc_block`: code/verbatim elements go through
`code_template`, text elements through `_update_text_block`. -/
def update_doc_block (env : NsTable) (ctx : RefCtx) (code_template : CodeCb)
    (class_link : LinkCb) (block : DocBlock) : DocBlock :=
  ⟨block.elements.map (fun element =>
    match element.element_type with
    | .code => { text := code_template element.text, element_type := ElemType.code }
    | .verbatim => { text := code_template element.text, element_type := ElemType.verbatim }
    | .text =>
      { text := update_text_block env ctx class_link element.text
        element_type := ElemType.text })⟩

/-- `EntityDoc.post_process`: rewrite `brief` and `desc` when present
(a present-but-empty block is truthy in Python, hence also rewritten;
`deprecated`/`todo` are left untouched). -/
def postProcessFields (env : NsTable) (ctx : RefCtx) (ct : CodeCb) (cl : LinkCb)
    (f : EntityFields) : EntityFields :=
  { f with
    brief := f.brief.map (update_doc_block env ctx ct cl)
    desc := f.desc.map (update_doc_block env ctx ct cl) }

/-- `MethodDoc.post_process` for the method of class `cls` of namespace `ns`
(its wired `class_doc` back-reference). -/
def MethodDoc.post_process (env : NsTable) (ns cls : String) (ct : CodeCb)
    (cl : LinkCb) (m : MethodDoc) : MethodDoc :=
  let ctx := RefCtx.inMethod (some (ns, cls))
  { m with
    base := postProcessFields env ctx ct cl m.base
    params := m.params.map (fun p => { p with desc := update_doc_block env ctx ct cl p.desc })
    returns := m.returns.map (update_doc_block env ctx ct cl) }

/-- `AttributeDoc` has no override: `EntityDoc.post_process` with the base
`_find_reference` (the `class_doc` back-reference is not consulted). -/
def AttributeDoc.post_process (env : NsTable) (ct : CodeCb) (cl : LinkCb)
    (a : AttributeDoc) : AttributeDoc :=
  { a with base := postProcessFields env .base ct cl a.base }

/-- `EnumeratorDoc` has no override either. -/
def EnumeratorDoc.post_process (env : NsTable) (ct : CodeCb) (cl : LinkCb)
    (v : EnumeratorDoc) : EnumeratorDoc :=
  { v with base := postProcessFields env .base ct cl v.base }

/-- `EnumDoc.post_process`: own fields, then each enumerator. -/
def EnumDoc.post_process (env : NsTable) (ct : CodeCb) (cl : LinkCb)
    (e : EnumDoc) : EnumDoc :=
  { e with
    base := postProcessFields env .base ct cl e.base
    values := e.values.map (EnumeratorDoc.post_process env ct cl) }

/-- `ClassDoc.post_process` for the class `cls` of namespace `ns`: own
fields, then public methods, attributes and enums. -/
def ClassDoc.post_process (env : NsTable) (ns cls : String) (ct : CodeCb)
    (cl : LinkCb) (c : ClassDoc) : ClassDoc :=
  { c with
    base := postProcessFields env (.inClass ns cls) ct cl c.base
    public_methods := c.public_methods.map (MethodDoc.post_process env ns cls ct cl)
    public_attributes := c.public_attributes.map (AttributeDoc.post_process env ct cl)
    public_enums := c.public_enums.map (fun e => (e.1, EnumDoc.post_process env ct cl e.2)) }

/-- `NamespaceDoc.post_process` for the namespace named `ns`: own fields and
its enums — its classes are NOT traversed here (they are post-processed via
the orchestrator's global `classes` loop). -/
def NamespaceDoc.post_process (env : NsTable) (ns : String) (ct : CodeCb)
    (cl : LinkCb) (n : NamespaceDoc) : NamespaceDoc :=
  { n with
    base := postProcessFields env (.inNs ns) ct cl n.base
    enums := n.enums.map (fun e => (e.1, EnumDoc.post_process env ct cl e.2)) }

/-- The per-file registries of a `FileDoc`, as name references into the
graph (a `FileDoc` aliases the shared namespace/class/enum objects; the
orchestrator never touches files). -/
structure FileDoc where
  base : EntityFields
  namespaces : List String := []
  classes : List String := []
  enums : List String := []
deriving DecidableEq, Repr

/-- `ParsedDocData` (`parse.py`).  `namespaces` owns the object graph;
`classes` and `enums` model the global dicts, whose every entry aliases
`namespaces[ns].classes[name]` (resp. `.enums[name]`) — `parse` always
assigns both sides together — so they are stored as name → owning-namespace
references. -/
structure ParsedDocData where
  namespaces : List (String × NamespaceDoc) := []
  classes : List (String × String) := []
  enums : List (String × String) := []
  files : List (String × FileDoc) := []
deriving DecidableEq, Repr

/-- `copy.deepcopy(parsed_data)`: an independent value copy (inner sharing,
e.g. global-dict aliasing, is preserved by the reference representation). -/
def deepcopyParsed (g : ParsedDocData) : ParsedDocData := g

/-- `parse.post_process`.  Returns the pair
(state of the original graph after the call, returned post-processed copy):
the original is deep-copied, every namespace of the copy is post-processed,
then every class reachable from the global `classes` dict of the copy —
mutating the shared class objects inside the copy's namespace maps — and all
resolution queries go against the ORIGINAL graph's `namespaces` table. -/
def parse_post_process (parsed_data : ParsedDocData) (ct : CodeCb) (cl : LinkCb) :
    ParsedDocData × ParsedDocData :=
  let post_processed := deepcopyParsed parsed_data
  let env : NsTable := parsed_data.namespaces
  let nss :=
    post_processed.namespaces.map (fun e => (e.1, NamespaceDoc.post_process env e.1 ct cl e.2))
  let nss :=
    post_processed.classes.foldl
      (fun acc e =>
        aupdate acc e.2 (fun ns =>
          { ns with classes := aupdate ns.classes e.1 (ClassDoc.post_process env e.2 e.1 ct cl) }))
      nss
  (parsed_data, { post_processed with namespaces := nss })

/-! ## Inheritance resolver (`ClassDoc.inheritance_tree`)

`inheritance_tree` is a `cached_property`; memoization cannot change the
value of the pure recursion, only its cost, so it is not modelled.  Classes
are identified by their simple name, which is in bijection with the Python
object identity used by `cls not in result`, because every class reached by
the recursion is a value of the one namespace's name-keyed `classes` dict.
The `Nat` argument is fuel bounding the recursion depth: `none` means the
computation did not complete within that depth, so a result that is `none`
for EVERY fuel is a Python recursion that never terminates
(`RecursionError`). -/

/-- The `for base_class in self.base_classes` loop body: skip base names
missing from the namespace's class map, recurse (through `rec`, the
resolver at the remaining depth) on the present ones, and fold the returned
tree into `result` keeping first occurrences (`if cls not in result`). -/
def inheritanceBases (rec : String → Option (List String))
    (classes : List (String × ClassDoc)) :
    List String → List String → Option (List String)
  | [], result => some result
  | b :: bs, result =>
    match alookup classes b with
    | none => inheritanceBases rec classes bs result
    | some _ =>
      match rec b with
      | none => none
      | some base_inheritance_tree =>
        inheritanceBases rec classes bs
          (base_inheritance_tree.foldl
            (fun r cls => if cls ∈ r then r else r ++ [cls]) result)

/-- `ClassDoc.inheritance_tree`, fuelled (see above). -/
def inheritance_tree (classes : List (String × ClassDoc)) :
    Nat → String → Option (List String)
  | 0 => fun _ => none
  | n + 1 => fun name =>
    match alookup classes name with
    | none => none
    | some c => inheritanceBases (inheritance_tree classes n) classes c.base_classes [name]

/-! ## Lemmas about the string primitives -/

theorem replaceAux_nil (p : Char) (ps rep : List Char) (n : Nat) :
    replaceAux p ps rep n [] = [] := by
  cases n <;> rfl

theorem replaceAux_self (p : Char) (ps : List Char) :
    ∀ (n : Nat) (l : List Char), l.length ≤ n → replaceAux p ps (p :: ps) n l = l := by
  intro n
  induction n with
  | zero =>
    intro l hl
    have : l = [] := List.length_eq_zero.mp (Nat.le_zero.mp hl)
    subst this
    exact replaceAux_nil p ps (p :: ps) 0
  | succ n ih =>
    intro l hl
    match l with
    | [] => exact replaceAux_nil p ps (p :: ps) (n + 1)
    | c :: cs =>
      rw [replaceAux]
      by_cases h : (p :: ps).isPrefixOf (c :: cs)
      · rw [if_pos h]
        obtain ⟨t, ht⟩ := List.isPrefixOf_iff_prefix.mp h
        rw [List.cons_append] at ht
        have hpc := List.cons.inj ht
        have hcs : cs = ps ++ t := hpc.2.symm
        have hlen : t.length ≤ n := by
          have h1 : cs.length ≤ n := by
            rw [List.length_cons] at hl; omega
          rw [hcs, List.length_append] at h1; omega
        rw [hcs, List.drop_left, ih t hlen, ← hpc.1, List.cons_append]
      · rw [if_neg h]
        have hcl : cs.length ≤ n := by
          rw [List.length_cons] at hl; omega
        rw [ih cs hcl]

/-- Replacing every occurrence of a pattern by the pattern itself is the
identity (Python `w.replace(s, s) == w`). -/
theorem pyReplace_self (w s : String) : pyReplace w s s = w := by
  unfold pyReplace replaceL
  match hs : s.data with
  | [] =>
    show ofL ([] ++ (w.data.map (fun c => [c] ++ [])).flatten) = w
    have : ∀ l : List Char, (l.map (fun c => [c] ++ [])).flatten = l := by
      intro l
      induction l with
      | nil => rfl
      | cons c cs ih => simpa using ih
    rw [List.nil_append, this]
    rfl
  | p :: ps =>
    show ofL (replaceAux p ps (p :: ps) w.data.length w.data) = w
    rw [replaceAux_self p ps w.data.length w.data (Nat.le_refl _)]
    rfl

/-- Replacing a whole non-empty string inside itself yields the replacement
(Python `w.replace(w, r) == r` for non-empty `w`). -/
theorem pyReplace_whole (w r : String) (h : w.data ≠ []) : pyReplace w w r = r := by
  unfold pyReplace replaceL
  match hs : w.data with
  | [] => exact absurd hs h
  | p :: ps =>
    show ofL (replaceAux p ps r.data (p :: ps).length (p :: ps)) = r
    rw [List.length_cons, replaceAux]
    rw [if_pos (List.isPrefixOf_iff_prefix.mpr (List.prefix_refl _))]
    rw [List.drop_length, replaceAux_nil, List.append_nil]
    rfl

/-- `splitWsAux` on an all-非whitespace list yields the single chunk
`acc.reverse ++ l`. -/
theorem splitWsAux_all_nonws :
    ∀ (l acc : List Char), (∀ c ∈ l, isPyWs c = false) →
      acc.reverse ++ l ≠ [] → splitWsAux l acc = [acc.reverse ++ l] := by
  intro l
  induction l with
  | nil =>
    intro acc _ hne
    rw [List.append_nil] at hne
    have hacc : acc ≠ [] := fun h => hne (by rw [h]; rfl)
    show (if acc = [] then [] else [acc.reverse]) = [acc.reverse ++ []]
    rw [if_neg hacc, List.append_nil]
  | cons c cs ih =>
    intro acc hws _
    have hc : isPyWs c = false := hws c (List.mem_cons_self c cs)
    show (if isPyWs c = true then _ else splitWsAux cs (c :: acc)) = _
    rw [hc]
    simp only [Bool.false_eq_true, if_false]
    have hcs : ∀ x ∈ cs, isPyWs x = false := fun x hx => hws x (List.mem_cons_of_mem c hx)
    have hne2 : (c :: acc).reverse ++ cs ≠ [] := by
      simp [List.reverse_cons]
    rw [ih (c :: acc) hcs hne2, List.reverse_cons, List.append_assoc]
    rfl

/-- Every chunk produced by `splitWsAux` is non-empty. -/
theorem splitWsAux_ne_nil :
    ∀ (l acc : List Char), ∀ x ∈ splitWsAux l acc, x ≠ [] := by
  intro l
  induction l with
  | nil =>
    intro acc x hx
    by_cases hacc : acc = []
    · rw [hacc] at hx
      exact absurd hx (by simp [splitWsAux])
    · have : splitWsAux [] acc = [acc.reverse] := by
        show (if acc = [] then [] else [acc.reverse]) = [acc.reverse]
        rw [if_neg hacc]
      rw [this] at hx
      have := List.mem_singleton.mp hx
      rw [this]
      simpa using hacc
  | cons c cs ih =>
    intro acc x hx
    show x ≠ []
    by_cases hc : isPyWs c = true
    · have hrw : splitWsAux (c :: cs) acc =
          (if acc = [] then splitWsAux cs [] else acc.reverse :: splitWsAux cs []) := by
        show (if isPyWs c = true then _ else _) = _
        rw [if_pos hc]
      rw [hrw] at hx
      by_cases hacc : acc = []
      · rw [if_pos hacc] at hx
        exact ih [] x hx
      · rw [if_neg hacc] at hx
        rcases List.mem_cons.mp hx with h | h
        · rw [h]; simpa using hacc
        · exact ih [] x h
    · have hrw : splitWsAux (c :: cs) acc = splitWsAux cs (c :: acc) := by
        show (if isPyWs c = true then _ else _) = _
        rw [if_neg hc]
      rw [hrw] at hx
      exact ih (c :: acc) x hx

/-- Every word of `pySplit` is a non-empty string. -/
theorem pySplit_ne_empty (s : String) : ∀ w ∈ pySplit s, w ≠ "" := by
  intro w hw
  unfold pySplit at hw
  obtain ⟨x, hx, hofl⟩ := List.mem_map.mp hw
  have hxne := splitWsAux_ne_nil s.data [] x hx
  intro hcon
  apply hxne
  have hwx : w.data = x := by rw [← hofl]; rfl
  rw [hcon] at hwx
  exact hwx.symm

/-- A non-empty string with no whitespace splits to the singleton of
itself. -/
theorem pySplit_single (t : String) (h1 : t.data ≠ [])
    (h2 : ∀ c ∈ t.data, isPyWs c = false) : pySplit t = [t] := by
  unfold pySplit
  rw [splitWsAux_all_nonws t.data [] h2 (by simpa using h1)]
  rfl

/-- `zipReplace` over the pointwise-stripped and pointwise-modified lists,
when the modification fixes every stripped word, returns the words. -/
theorem zipReplace_id (cb : String → String) :
    ∀ ws : List String, (∀ w ∈ ws, cb (stripWord w) = stripWord w) →
      (∀ w ∈ ws, w ≠ "") →
      zipReplace ws (ws.map stripWord) ((ws.map stripWord).map cb) = ws := by
  intro ws
  induction ws with
  | nil => intro _ _; rfl
  | cons w ws ih =>
    intro hfix hne
    show (if w ≠ "" then [pyReplace w (stripWord w) (cb (stripWord w))] else []) ++
        zipReplace ws (ws.map stripWord) ((ws.map stripWord).map cb) = w :: ws
    rw [if_pos (hne w (List.mem_cons_self w ws))]
    rw [hfix w (List.mem_cons_self w ws), pyReplace_self]
    rw [ih (fun x hx => hfix x (List.mem_cons_of_mem w hx))
        (fun x hx => hne x (List.mem_cons_of_mem w hx))]
    rfl

/-- When the word callback fixes every stripped word of the sentence,
`modify_sentence` is exactly split-and-rejoin-with-single-spaces. -/
theorem modify_sentence_fix (t : String) (cb : String → String)
    (h : ∀ w ∈ pySplit t, cb (stripWord w) = stripWord w) :
    modify_sentence t cb = pyJoinSpace (pySplit t) := by
  rw [show modify_sentence t cb = pyJoinSpace
      (zipReplace (pySplit t) ((pySplit t).map stripWord)
        (((pySplit t).map stripWord).map cb)) from rfl]
  rw [zipReplace_id cb (pySplit t) h (pySplit_ne_empty t)]

/-- On a single whitespace-free word, `modify_sentence` is one
strip-modify-splice step. -/
theorem modify_sentence_single (t : String) (cb : String → String)
    (h1 : t.data ≠ []) (h2 : ∀ c ∈ t.data, isPyWs c = false) :
    modify_sentence t cb = pyReplace t (stripWord t) (cb (stripWord t)) := by
  unfold modify_sentence
  rw [pySplit_single t h1 h2]
  show pyJoinSpace
      ((if t ≠ "" then [pyReplace t (stripWord t) (cb (stripWord t))] else []) ++ []) = _
  have ht : t ≠ "" := by
    intro hcon
    apply h1
    rw [hcon]
  rw [if_pos ht, List.singleton_append]
  rfl

/-- `processWord` leaves a non-marker word whose token path resolves in no
scope unchanged. -/
theorem processWord_id (env : NsTable) (ctx : RefCtx) (cl : LinkCb) (s : String)
    (h1 : s ≠ "@ref") (h2 : s ≠ "\\ref")
    (h3 : findReference env ctx (pySplitRef s) = none) :
    processWord env ctx cl s = s := by
  unfold processWord
  rw [h3]
  simp [h1, h2]

/-! ## Concrete fixtures used by the claim theorems -/

/-- A concrete `class_link` callback used in closed statements. -/
def linkFmt : LinkCb := fun m n c mem => "[" ++ m ++ "|" ++ n ++ "|" ++ c ++ "|" ++ mem ++ "]"

/-- A namespace `"ns"` holding a class `"C"` (with public method `"m"`) and
a class `"Foo"` (with public method `"bar"`). -/
def nsDemo : NamespaceDoc :=
  { base := { name := "ns" }
    classes :=
      [("C", { base := { name := "C" }, full_name := "ns::C"
               public_methods := [{ base := { name := "m" } }] }),
       ("Foo", { base := { name := "Foo" }, full_name := "ns::Foo"
                 public_methods := [{ base := { name := "bar" } }] })] }

/-- The global namespace table holding `nsDemo`. -/
def envDemo : NsTable := [("ns", nsDemo)]

/-- The resolution context of a method of class `"C"` of namespace `"ns"`. -/
def ctxMethodC : RefCtx := .inMethod (some ("ns", "C"))

/-- A diamond class map: `C` declares bases `[A, B, External]`, `A` and `B`
both declare base `[Root]`; `External` is absent from the map. -/
def demoClasses : List (String × ClassDoc) :=
  [("C", { base := { name := "C" }, base_classes := ["A", "B", "External"] }),
   ("A", { base := { name := "A" }, base_classes := ["Root"] }),
   ("B", { base := { name := "B" }, base_classes := ["Root"] }),
   ("Root", { base := { name := "Root" } })]

/-- A malformed (cyclic) class map: `A` declares base `[B]`, `B` declares
base `[A]`. -/
def cycClasses : List (String × ClassDoc) :=
  [("A", { base := { name := "A" }, base_classes := ["B"] }),
   ("B", { base := { name := "B" }, base_classes := ["A"] })]

/-- On the cyclic class map, no finite recursion depth completes the
computation for either class: the Python recursion never terminates. -/
theorem cyc_inheritance_none :
    ∀ n : Nat, inheritance_tree cycClasses n "A" = none ∧
      inheritance_tree cycClasses n "B" = none := by
  intro n
  induction n with
  | zero => exact ⟨rfl, rfl⟩
  | succ n ih =>
    constructor
    · have h1 : inheritance_tree cycClasses (n + 1) "A" =
          (match inheritance_tree cycClasses n "B" with
           | none => none
           | some base_inheritance_tree =>
             inheritanceBases (inheritance_tree cycClasses n) cycClasses []
               (base_inheritance_tree.foldl
                 (fun r cls => if cls ∈ r then r else r ++ [cls]) ["A"])) := rfl
      rw [h1, ih.2]
    · have h2 : inheritance_tree cycClasses (n + 1) "B" =
          (match inheritance_tree cycClasses n "A" with
           | none => none
           | some base_inheritance_tree =>
             inheritanceBases (inheritance_tree cycClasses n) cycClasses []
               (base_inheritance_tree.foldl
                 (fun r cls => if cls ∈ r then r else r ++ [cls]) ["B"])) := rfl
      rw [h2, ih.1]

/-! ## The claims -/

/-- C1: for every parsed entity graph and every pair of rendering callbacks,
`parse.post_process` leaves the original graph structurally unchanged (first
conjunct: the original's state after the call equals its state before), and
re-running it over that untouched original produces a structurally identical
resolved output (second conjunct). -/
theorem claim_C1 : ∀ (g : ParsedDocData) (ct : CodeCb) (cl : LinkCb),
    (parse_post_process g ct cl).1 = g ∧
    (parse_post_process (parse_post_process g ct cl).1 ct cl).2 =
      (parse_post_process g ct cl).2 :=
  fun _ _ _ => ⟨rfl, rfl⟩

/-- C2: inside a method of class `C` of namespace `ns`, where `ns` also
holds a class `Foo` with public method `bar`, the word `"Foo::bar()"` is
rewritten to `class_link("Foo::bar()", "ns", "Foo", "bar")` for every link
callback; and any whitespace-free word that is not a reference marker and
whose token path resolves in no scope of the scope chain is returned
byte-for-byte unchanged, surrounding punctuation included. -/
theorem claim_C2 :
    (∀ cl : LinkCb, update_text_block envDemo ctxMethodC cl "Foo::bar()" =
      cl "Foo::bar()" "ns" "Foo" "bar") ∧
    (∀ (cl : LinkCb) (w : String), w.data ≠ [] → (∀ c ∈ w.data, isPyWs c = false) →
      stripWord w ≠ "@ref" → stripWord w ≠ "\\ref" →
      findReference envDemo ctxMethodC (pySplitRef (stripWord w)) = none →
      update_text_block envDemo ctxMethodC cl w = w) := by
  constructor
  · intro cl
    rw [update_text_block,
      modify_sentence_single "Foo::bar()" (processWord envDemo ctxMethodC cl)
        (by decide) (by decide)]
    rw [show stripWord "Foo::bar()" = "Foo::bar()" from rfl]
    rw [show processWord envDemo ctxMethodC cl "Foo::bar()" =
      cl "Foo::bar()" "ns" "Foo" "bar" from rfl]
    exact pyReplace_whole "Foo::bar()" (cl "Foo::bar()" "ns" "Foo" "bar") (by decide)
  · intro cl w h1 h2 h3 h4 h5
    rw [update_text_block,
      modify_sentence_single w (processWord envDemo ctxMethodC cl) h1 h2]
    rw [processWord_id envDemo ctxMethodC cl (stripWord w) h3 h4 h5]
    exact pyReplace_self w (stripWord w)

/-- C2 witness: the two parts of C2 applied at concrete inputs — the
resolvable word renders through the concrete callback, and the unresolvable
word `"(missing.)"` (with punctuation) comes back byte-for-byte. -/
theorem claim_C2_witness :
    update_text_block envDemo ctxMethodC linkFmt "Foo::bar()" =
      "[Foo::bar()|ns|Foo|bar]" ∧
    update_text_block envDemo ctxMethodC linkFmt "(missing.)" = "(missing.)" :=
  ⟨(claim_C2.1 linkFmt).trans rfl,
   claim_C2.2 linkFmt "(missing.)" (by decide) (by decide) (by decide) (by decide)
     (by decide)⟩

/-- C3 counterexample: in a code region the text preceding the terminator
on the terminating line is NOT included (the claim predicts
`"@code\nint i = 1;\nx"`; the code discards the whole terminating line and
yields `"@code\nint i = 1;"`). -/
theorem claim_C3_cex :
    preprocess_lines ["@code", "int i = 1;", "x@endcode"] ≠
      ["@code\nint i = 1;\nx"] ∧
    preprocess_lines ["@code", "int i = 1;", "x@endcode"] = ["@code\nint i = 1;"] :=
  ⟨by decide, rfl⟩

/-- C3 amended: inside a verbatim region the terminating line contributes
all of its text except the terminator tags themselves — text before the
terminator is included AND text after it is retained too (the branch only
deletes the `\endverbatim`/`@endverbatim` substrings and applies the
positional-prefix slice); inside a code region the terminating line is
discarded entirely, text preceding the terminator included. -/
theorem claim_C3 :
    preprocess_lines ["@verbatim", "line1", "line2@endverbatim"] =
      ["@verbatim\nline1\nline2"] ∧
    preprocess_lines ["@verbatim", "x@endverbatim tail"] = ["@verbatim\nx tail"] ∧
    preprocess_lines ["@code", "int i = 1;", "x@endcode"] = ["@code\nint i = 1;"] :=
  ⟨rfl, rfl, rfl⟩

/-- C4: `parse_param` is NOT total — on a param command whose block has no
elements it raises `IndexError` (`param_doc.doc.elements[0]`; the
`if not param_doc.doc` guard is dead because a `DocBlock` is always truthy,
and the surrounding `try` catches only `ValueError`).  The remaining parts
of the claim hold: an undeclared first token or a name failing the
direction regex yields `None`, and `"@param[out] x the output value"` with
declared parameter `x : int` yields `Param(x, Out, "int", "the output
value")`. -/
theorem claim_C4 :
    parse_param { name := "param", doc := ⟨[]⟩ } [{ name := "x", type_fmt := "int" }] =
      Except.error "IndexError: list index out of range" ∧
    parse_param { name := "param[out]"
                  doc := ⟨[{ text := "x the output value", element_type := .text }]⟩ }
        [{ name := "x", type_fmt := "int" }] =
      Except.ok (some { name := "x"
                        desc := ⟨[{ text := "the output value", element_type := .text }]⟩
                        param_type := "int", direction := .OUT }) ∧
    parse_param { name := "param"
                  doc := ⟨[{ text := "y the output value", element_type := .text }]⟩ }
        [{ name := "x", type_fmt := "int" }] = Except.ok none ∧
    parse_param { name := "param[bogus]"
                  doc := ⟨[{ text := "x the output value", element_type := .text }]⟩ }
        [{ name := "x", type_fmt := "int" }] = Except.ok none :=
  ⟨rfl, rfl, rfl, rfl⟩

/-- C5: on the diamond class map (`C` with bases `[A, B, External]`, `A`
and `B` each with base `[Root]`, `External` absent from the map),
`inheritance_tree(C)` computes, at every sufficient recursion depth, exactly
`[C, A, Root, B]`: the class itself first, then depth-first through bases in
declaration order, every class exactly once although `Root` is reachable
twice, and the unresolvable base name skipped. -/
theorem claim_C5 :
    ∀ n : Nat, inheritance_tree demoClasses (n + 3) "C" = some ["C", "A", "Root", "B"] :=
  fun _ => rfl

/-- C6: `inheritance_tree` is NOT guarded against cycles — on the cyclic
class map (`A` with base `[B]`, `B` with base `[A]`) the recursion fails to
complete within ANY finite depth budget, i.e. the Python recursion never
terminates (it dies with `RecursionError`). -/
theorem claim_C6 :
    ∀ n : Nat, inheritance_tree cycClasses n "A" = none :=
  fun n => (cyc_inheritance_none n).1

/-- C7: grouping the logical-line sequence
`["@keyword1 a", "@blank", "more text"]` yields exactly the anonymous
command containing `"more text"` followed by command `keyword1` containing
`"a"` — the blank keyword reset current to the anonymous command without
emitting an element, so the text landed in the anonymous block, which was
touched first. -/
theorem claim_C7 :
    group_lines ["@keyword1 a", "@blank", "more text"] =
      [{ name := "", doc := ⟨[{ text := "more text", element_type := .text }]⟩ },
       { name := "keyword1", doc := ⟨[{ text := "a", element_type := .text }]⟩ }] :=
  rfl

/-- C8 counterexample: two same-named commands with identical content are
NOT both retained — the grouper's `not in` membership test compares
dataclasses by value, so the second `"@param x a"` is never appended and the
output has one command, not two. -/
theorem claim_C8_cex :
    (group_lines ["@param x a", "@param x a"]).length ≠ 2 ∧
    group_lines ["@param x a", "@param x a"] =
      [{ name := "param", doc := ⟨[{ text := "x a", element_type := .text }]⟩ }] :=
  ⟨by decide, rfl⟩

/-- C8 amended: same-named commands are all retained as separate
CommandDocs, in the order first touched, as long as their contents differ;
a later command whose name AND content both equal an already-recorded
command is dropped (Python's `not in` compares dataclasses by value). -/
theorem claim_C8 :
    group_lines ["@param x a", "@param y b"] =
      [{ name := "param", doc := ⟨[{ text := "x a", element_type := .text }]⟩ },
       { name := "param", doc := ⟨[{ text := "y b", element_type := .text }]⟩ }] ∧
    group_lines ["@param x a", "@param x a"] =
      [{ name := "param", doc := ⟨[{ text := "x a", element_type := .text }]⟩ }] :=
  ⟨rfl, rfl⟩

/-- C9 counterexample: an interior `@ref` word is NOT zero-width — the
rewrite of `"a @ref b"` keeps the emptied word's slot in the single-space
rejoin, producing `"a  b"` (double space), not the claimed `"a b"`. -/
theorem claim_C9_cex :
    update_text_block [] .base linkFmt "a @ref b" ≠ "a b" ∧
    update_text_block [] .base linkFmt "a @ref b" = "a  b" :=
  ⟨by decide, rfl⟩

/-- C9 amended: a word whose punctuation-stripped token is `@ref`/`\ref`
has that token replaced by the empty string inside the word: surrounding
punctuation survives (`"(@ref"` leaves `"("`), and the word keeps its slot
in the space-rejoin, so a bare interior marker leaves a double space. -/
theorem claim_C9 :
    update_text_block [] .base linkFmt "a @ref b" = "a  b" ∧
    update_text_block [] .base linkFmt "see (@ref x" = "see ( x" :=
  ⟨rfl, rfl⟩

/-- C10: for every Text element none of whose words resolves (and none of
which is a reference marker), cross-reference rewriting still normalizes
whitespace: the result is exactly the whitespace-split words rejoined with
single spaces, so leading/trailing whitespace and runs of spaces, tabs or
newlines are not preserved. -/
theorem claim_C10 :
    ∀ (env : NsTable) (ctx : RefCtx) (cl : LinkCb) (t : String),
      (∀ w ∈ pySplit t, stripWord w ≠ "@ref" ∧ stripWord w ≠ "\\ref" ∧
        findReference env ctx (pySplitRef (stripWord w)) = none) →
      update_text_block env ctx cl t = pyJoinSpace (pySplit t) := by
  intro env ctx cl t h
  unfold update_text_block
  apply modify_sentence_fix
  intro w hw
  exact processWord_id env ctx cl (stripWord w) (h w hw).1 (h w hw).2.1 (h w hw).2.2

/-- C10 witness: a concrete unresolvable text with leading/trailing blanks,
a tab and a newline collapses to single-space-separated words. -/
theorem claim_C10_witness :
    update_text_block [] .base linkFmt "  a \t b\nc  " = "a b c" ∧
    update_text_block [] .base linkFmt "  a \t b\nc  " ≠ "  a \t b\nc  " :=
  ⟨(claim_C10 [] .base linkFmt "  a \t b\nc  " (by decide)).trans rfl, by decide⟩

end ProjectD
